import Mathlib

/-!
Verification of the rstmdb-py connection engine.

Shallow embedding of the `rstmdb` Python client's core:

* `Rstmdb.Protocol` — the binary frame codec of `src/rstmdb/protocol.py`
  (CRC-32C checksum, `Frame.encode`, `Frame.decode`).
* `Rstmdb.Conn` — the reader-loop / pending-table model of
  `src/rstmdb/connection.py`.
* `Rstmdb.Client` — the reconnect / backoff / event-iterator model of
  `src/rstmdb/client.py`.

Machine integers are modelled as `Nat` with explicit bounds; byte strings as
`List Nat` (each element `< 256` where it matters); fallible operations return
`Option` or `Except`.
-/

namespace Rstmdb
namespace Protocol

/-- `MAGIC = b"RCPX"` from protocol.py. -/
def MAGIC : List Nat := [82, 67, 80, 88]

/-- `PROTOCOL_VERSION = 1`. -/
def PROTOCOL_VERSION : Nat := 1

/-- `FLAG_CRC_PRESENT = 0x0001`. -/
def FLAG_CRC_PRESENT : Nat := 0x0001

/-- `HEADER_SIZE = 18`. -/
def HEADER_SIZE : Nat := 18

/-- `_CRC32C_POLY = 0x82F63B78` (reflected Castagnoli polynomial). -/
def CRC32C_POLY : Nat := 0x82F63B78

/-- One inner iteration of `_init_crc32c_table`:
`crc = (crc >> 1) ^ _CRC32C_POLY if crc & 1 else crc >> 1`. -/
def crcInner (crc : Nat) : Nat :=
  if crc &&& 1 = 1 then (crc >>> 1) ^^^ CRC32C_POLY else crc >>> 1

/-- `_CRC32C_TABLE[i]`: the table entry produced by `_init_crc32c_table`,
eight `crcInner` iterations starting from `i`. -/
def crc32c_table (i : Nat) : Nat :=
  crcInner (crcInner (crcInner (crcInner (crcInner (crcInner (crcInner (crcInner i)))))))

/-- One step of the `crc32c` loop:
`crc = (crc >> 8) ^ _CRC32C_TABLE[(crc ^ byte) & 0xFF]`. -/
def crcStep (crc byte : Nat) : Nat :=
  (crc >>> 8) ^^^ crc32c_table ((crc ^^^ byte) &&& 0xFF)

/-- `crc32c(data)`: fold `crcStep` over the data starting from `0xFFFFFFFF`,
then XOR with `0xFFFFFFFF`. -/
def crc32c (data : List Nat) : Nat :=
  (data.foldl crcStep 0xFFFFFFFF) ^^^ 0xFFFFFFFF

/-- Big-endian 2-byte serialization, as `struct.pack(">H", n)`. -/
def packU16 (n : Nat) : List Nat := [(n >>> 8) % 256, n % 256]

/-- Big-endian 4-byte serialization, as `struct.pack(">I", n)`. -/
def packU32 (n : Nat) : List Nat :=
  [(n >>> 24) % 256, (n >>> 16) % 256, (n >>> 8) % 256, n % 256]

/-- Big-endian 2-byte read, as `struct.unpack(">H", ...)` applied to the
first two bytes of the list. -/
def readU16 (l : List Nat) : Nat := 256 * l.getD 0 0 + l.getD 1 0

/-- Big-endian 4-byte read, as `struct.unpack(">I", ...)` applied to the
first four bytes of the list. -/
def readU32 (l : List Nat) : Nat :=
  2 ^ 24 * l.getD 0 0 + 2 ^ 16 * l.getD 1 0 + 2 ^ 8 * l.getD 2 0 + l.getD 3 0

/-- The `ProtocolError` raised by `Frame.decode`, with the data the Python
error messages interpolate. -/
inductive ProtocolError where
  | invalidMagic (magic : List Nat)
  | unsupportedVersion (version : Nat)
  | crcMismatch (expected actual : Nat)
  deriving DecidableEq, Repr

/-- The `Frame` class: payload, `use_crc` flag and header extension. -/
structure Frame where
  payload : List Nat
  use_crc : Bool
  header_extension : List Nat
  deriving DecidableEq, Repr

/-- `Frame.encode`.  `struct.pack(">4sHHHII", ...)` raises when a field is out
of range, so encoding returns `none` when the header-extension length exceeds
16 bits or the payload length exceeds 32 bits; otherwise it is the header
(magic, version, flags, header_len, payload_len, crc) followed by the header
extension and the payload. -/
def Frame.encode (f : Frame) : Option (List Nat) :=
  if f.header_extension.length < 2 ^ 16 ∧ f.payload.length < 2 ^ 32 then
    let flags := if f.use_crc then FLAG_CRC_PRESENT else 0
    let crc := if f.use_crc then crc32c f.payload else 0
    some (MAGIC ++ packU16 PROTOCOL_VERSION ++ packU16 flags ++
      packU16 f.header_extension.length ++ packU32 f.payload.length ++
      packU32 crc ++ f.header_extension ++ f.payload)
  else none

/-- `Frame.decode(buffer)`: returns `(None, buffer)` when fewer than 18 bytes
are buffered or the declared total exceeds the buffer, raises `ProtocolError`
on bad magic / unsupported version / CRC mismatch, and otherwise returns the
frame together with the bytes following it. -/
def Frame.decode (buffer : List Nat) :
    Except ProtocolError (Option Frame × List Nat) :=
  if buffer.length < HEADER_SIZE then .ok (none, buffer)
  else
    let magic := buffer.take 4
    let version := readU16 (buffer.drop 4)
    let flags := readU16 (buffer.drop 6)
    let header_len := readU16 (buffer.drop 8)
    let payload_len := readU32 (buffer.drop 10)
    let crc_expected := readU32 (buffer.drop 14)
    if magic ≠ MAGIC then .error (.invalidMagic magic)
    else if version ≠ PROTOCOL_VERSION then .error (.unsupportedVersion version)
    else
      let has_crc := flags &&& FLAG_CRC_PRESENT ≠ 0
      let total_size := HEADER_SIZE + header_len + payload_len
      if buffer.length < total_size then .ok (none, buffer)
      else
        let header_extension := (buffer.drop HEADER_SIZE).take header_len
        let payload := (buffer.drop (HEADER_SIZE + header_len)).take payload_len
        if has_crc ∧ crc_expected ≠ crc32c payload then
          .error (.crcMismatch crc_expected (crc32c payload))
        else
          .ok (some ⟨payload, has_crc, header_extension⟩, buffer.drop total_size)

/-! ### Properties of the CRC-32C implementation

The key fact behind checksum enforcement: one `crcStep` is injective in the
running CRC state, and two bytes differing in their low 8 bits step the same
state to different states.  Both reduce to the top bytes of the 256 lookup
table entries being pairwise distinct, which is checked by evaluation. -/

/-- The top bytes of all 256 CRC table entries, in order. -/
def tableTopBytes : List Nat := (List.range 256).map (fun i => crc32c_table i >>> 24)

set_option maxRecDepth 4096 in
theorem tableTopBytes_eq : tableTopBytes =
    [0, 242, 225, 19, 199, 53, 38, 212, 138, 120, 107, 153, 77, 191, 172, 94,
     16, 226, 241, 3, 215, 37, 54, 196, 154, 104, 123, 137, 93, 175, 188, 78,
     32, 210, 193, 51, 231, 21, 6, 244, 170, 88, 75, 185, 109, 159, 140, 126,
     48, 194, 209, 35, 247, 5, 22, 228, 186, 72, 91, 169, 125, 143, 156, 110,
     65, 179, 160, 82, 134, 116, 103, 149, 203, 57, 42, 216, 12, 254, 237, 31,
     81, 163, 176, 66, 150, 100, 119, 133, 219, 41, 58, 200, 28, 238, 253, 15,
     97, 147, 128, 114, 166, 84, 71, 181, 235, 25, 10, 248, 44, 222, 205, 63,
     113, 131, 144, 98, 182, 68, 87, 165, 251, 9, 26, 232, 60, 206, 221, 47,
     130, 112, 99, 145, 69, 183, 164, 86, 8, 250, 233, 27, 207, 61, 46, 220,
     146, 96, 115, 129, 85, 167, 180, 70, 24, 234, 249, 11, 223, 45, 62, 204,
     162, 80, 67, 177, 101, 151, 132, 118, 40, 218, 201, 59, 239, 29, 14, 252,
     178, 64, 83, 161, 117, 135, 148, 102, 56, 202, 217, 43, 255, 13, 30, 236,
     195, 49, 34, 208, 4, 246, 229, 23, 73, 187, 168, 90, 142, 124, 111, 157,
     211, 33, 50, 192, 20, 230, 245, 7, 89, 171, 184, 74, 158, 108, 127, 141,
     227, 17, 2, 240, 36, 214, 197, 55, 105, 155, 136, 122, 174, 92, 79, 189,
     243, 1, 18, 224, 52, 198, 213, 39, 121, 139, 152, 106, 190, 76, 95, 173] := by
  decide

set_option maxRecDepth 4096 in
theorem tableTopBytes_nodup : tableTopBytes.Nodup := by
  rw [tableTopBytes_eq]; decide

/-- Distinct table indices have distinct top bytes. -/
theorem table_top_inj {i j : Nat} (hi : i < 256) (hj : j < 256)
    (h : crc32c_table i >>> 24 = crc32c_table j >>> 24) : i = j := by
  have hlen : tableTopBytes.length = 256 := by
    simp [tableTopBytes]
  have hgi : tableTopBytes.get ⟨i, by omega⟩ = crc32c_table i >>> 24 := by
    simp [tableTopBytes]
  have hgj : tableTopBytes.get ⟨j, by omega⟩ = crc32c_table j >>> 24 := by
    simp [tableTopBytes]
  have := (tableTopBytes_nodup.get_inj_iff
    (i := ⟨i, by omega⟩) (j := ⟨j, by omega⟩)).mp (by rw [hgi, hgj, h])
  exact congrArg Fin.val this

set_option maxRecDepth 4096 in
theorem table_lt : ∀ i < 256, crc32c_table i < 2 ^ 32 := by decide

theorem and255_lt (x : Nat) : x &&& 255 < 256 := by
  have h := Nat.and_lt_two_pow x (show (255 : Nat) < 2 ^ 8 by norm_num)
  omega

theorem shiftRight_xor_distrib (a b k : Nat) :
    (a ^^^ b) >>> k = (a >>> k) ^^^ (b >>> k) := by
  apply Nat.eq_of_testBit_eq
  intro i
  simp [Nat.testBit_shiftRight, Nat.testBit_xor]

theorem and255_eq_mod (c : Nat) : c &&& 255 = c % 256 := by
  have : (255 : Nat) = 2 ^ 8 - 1 := by norm_num
  rw [this, Nat.and_pow_two_sub_one_eq_mod]

theorem crcStep_lt {c : Nat} (b : Nat) (h : c < 2 ^ 32) : crcStep c b < 2 ^ 32 := by
  unfold crcStep
  refine Nat.xor_lt_two_pow ?_ ?_
  · have hle : c >>> 8 ≤ c := by
      rw [Nat.shiftRight_eq_div_pow]; exact Nat.div_le_self _ _
    exact Nat.lt_of_le_of_lt hle h
  · exact table_lt _ (and255_lt _)

/-- A single CRC step is injective in the running state. -/
theorem crcStep_injective (b : Nat) {c1 c2 : Nat} (h1 : c1 < 2 ^ 32)
    (h2 : c2 < 2 ^ 32) (h : crcStep c1 b = crcStep c2 b) : c1 = c2 := by
  unfold crcStep at h
  have hm1 : (c1 ^^^ b) &&& 255 < 256 := and255_lt _
  have hm2 : (c2 ^^^ b) &&& 255 < 256 := and255_lt _
  -- the top bytes of the two step results come only from the table entries
  have htop : crc32c_table ((c1 ^^^ b) &&& 255) >>> 24
      = crc32c_table ((c2 ^^^ b) &&& 255) >>> 24 := by
    have h24 := congrArg (· >>> 24) h
    simp only [shiftRight_xor_distrib] at h24
    have e1 : (c1 >>> 8) >>> 24 = 0 := by
      rw [← Nat.shiftRight_add, Nat.shiftRight_eq_div_pow]
      exact Nat.div_eq_of_lt h1
    have e2 : (c2 >>> 8) >>> 24 = 0 := by
      rw [← Nat.shiftRight_add, Nat.shiftRight_eq_div_pow]
      exact Nat.div_eq_of_lt h2
    simpa [e1, e2] using h24
  have hm : (c1 ^^^ b) &&& 255 = (c2 ^^^ b) &&& 255 := table_top_inj hm1 hm2 htop
  have hhi : c1 >>> 8 = c2 >>> 8 := by
    rw [hm] at h
    exact Nat.xor_left_inj.mp h
  have hlo : c1 &&& 255 = c2 &&& 255 := by
    rw [Nat.and_xor_distrib_right, Nat.and_xor_distrib_right] at hm
    exact Nat.xor_left_inj.mp hm
  have e8 : (2 : Nat) ^ 8 = 256 := by norm_num
  have d1 : c1 = 256 * (c1 >>> 8) + c1 % 256 := by
    rw [Nat.shiftRight_eq_div_pow, e8]; omega
  have d2 : c2 = 256 * (c2 >>> 8) + c2 % 256 := by
    rw [Nat.shiftRight_eq_div_pow, e8]; omega
  rw [and255_eq_mod, and255_eq_mod] at hlo
  omega

/-- Bytes with different low 8 bits step the same state to different states. -/
theorem crcStep_ne_of_byte_ne {c b b' : Nat} (hb : b &&& 255 ≠ b' &&& 255) :
    crcStep c b ≠ crcStep c b' := by
  intro h
  unfold crcStep at h
  have hT : crc32c_table ((c ^^^ b) &&& 255) = crc32c_table ((c ^^^ b') &&& 255) :=
    Nat.xor_right_inj.mp h
  have hm : (c ^^^ b) &&& 255 = (c ^^^ b') &&& 255 :=
    table_top_inj (and255_lt _) (and255_lt _) (by rw [hT])
  rw [Nat.and_xor_distrib_right, Nat.and_xor_distrib_right] at hm
  exact hb (Nat.xor_right_inj.mp hm)

theorem foldl_crcStep_lt : ∀ (l : List Nat) {c : Nat}, c < 2 ^ 32 →
    l.foldl crcStep c < 2 ^ 32
  | [], _, h => h
  | b :: l, c, h => foldl_crcStep_lt l (crcStep_lt b h)

theorem foldl_crcStep_ne : ∀ (l : List Nat) {c1 c2 : Nat}, c1 < 2 ^ 32 →
    c2 < 2 ^ 32 → c1 ≠ c2 → l.foldl crcStep c1 ≠ l.foldl crcStep c2
  | [], _, _, _, _, hne => hne
  | b :: l, c1, c2, h1, h2, hne =>
    foldl_crcStep_ne l (crcStep_lt b h1) (crcStep_lt b h2)
      (fun h => hne (crcStep_injective b h1 h2 h))

theorem crc32c_lt (data : List Nat) : crc32c data < 2 ^ 32 := by
  unfold crc32c
  exact Nat.xor_lt_two_pow (foldl_crcStep_lt data (by norm_num)) (by norm_num)

/-- Flipping a single bit (bit `k < 8` of byte `i`) of the data changes its
CRC-32C checksum. -/
theorem crc32c_flip_ne (p : List Nat) (i k : Nat) (hi : i < p.length) (hk : k < 8) :
    crc32c (p.set i (p.getD i 0 ^^^ 2 ^ k)) ≠ crc32c p := by
  have hset : p.set i (p.getD i 0 ^^^ 2 ^ k)
      = p.take i ++ (p.getD i 0 ^^^ 2 ^ k) :: p.drop (i + 1) := by
    rw [List.set_eq_take_append_cons_drop]
    simp [hi]
  have hp : p = p.take i ++ p.getD i 0 :: p.drop (i + 1) := by
    conv_lhs => rw [← List.take_append_drop i p]
    rw [List.drop_eq_getElem_cons hi]
    simp [List.getD_eq_getElem?_getD, List.getElem?_eq_getElem hi]
  unfold crc32c
  intro h
  have h' := Nat.xor_left_inj.mp h
  rw [hset] at h'
  conv_rhs at h' => rw [hp]
  rw [List.foldl_append, List.foldl_append] at h'
  simp only [List.foldl_cons] at h'
  have hc : (p.take i).foldl crcStep 0xFFFFFFFF < 2 ^ 32 :=
    foldl_crcStep_lt _ (by norm_num)
  have hbyte : (p.getD i 0 ^^^ 2 ^ k) &&& 255 ≠ p.getD i 0 &&& 255 := by
    rw [Nat.and_xor_distrib_right]
    have h2k : 2 ^ k &&& 255 = 2 ^ k := by
      have : (2 : Nat) ^ k < 2 ^ 8 :=
        Nat.pow_lt_pow_right (by norm_num) hk
      have e : (255 : Nat) = 2 ^ 8 - 1 := by norm_num
      rw [e]
      exact Nat.and_pow_two_sub_one_of_lt_two_pow this
    rw [h2k]
    intro he
    have hz : (2 : Nat) ^ k = 0 := by
      rw [← Nat.xor_cancel_left (p.getD i 0 &&& 255) (2 ^ k), he, Nat.xor_self]
    have hpos : 0 < (2 : Nat) ^ k := Nat.pow_pos (by norm_num)
    omega
  exact foldl_crcStep_ne _ (crcStep_lt _ hc) (crcStep_lt _ hc)
    (crcStep_ne_of_byte_ne hbyte) h'

/-! ### Serialization round-trips and a closed form for decoding a
well-formed buffer -/

theorem readU16_packU16 {n : Nat} (h : n < 2 ^ 16) (rest : List Nat) :
    readU16 (packU16 n ++ rest) = n := by
  simp only [packU16, readU16, List.cons_append, List.nil_append,
    List.getD_eq_getElem?_getD, List.getElem?_cons_zero, List.getElem?_cons_succ,
    Option.getD_some, Nat.shiftRight_eq_div_pow]
  have e8 : (2 : Nat) ^ 8 = 256 := by norm_num
  rw [e8]
  omega

theorem readU32_packU32 {n : Nat} (h : n < 2 ^ 32) (rest : List Nat) :
    readU32 (packU32 n ++ rest) = n := by
  simp only [packU32, readU32, List.cons_append, List.nil_append,
    List.getD_eq_getElem?_getD, List.getElem?_cons_zero, List.getElem?_cons_succ,
    Option.getD_some, Nat.shiftRight_eq_div_pow]
  have e8 : (2 : Nat) ^ 8 = 256 := by norm_num
  have e16 : (2 : Nat) ^ 16 = 65536 := by norm_num
  have e24 : (2 : Nat) ^ 24 = 16777216 := by norm_num
  rw [e8, e16, e24]
  omega

theorem length_packU16 (n : Nat) : (packU16 n).length = 2 := rfl

theorem length_packU32 (n : Nat) : (packU32 n).length = 4 := rfl

/-- The bytes produced by `Frame.encode` for given flags / checksum fields,
followed by arbitrary trailing bytes. -/
def wireBytes (F CRC : Nat) (ext payload rest : List Nat) : List Nat :=
  MAGIC ++ packU16 PROTOCOL_VERSION ++ packU16 F ++ packU16 ext.length ++
    packU32 payload.length ++ packU32 CRC ++ ext ++ payload ++ rest

theorem encode_eq_wireBytes (f : Frame)
    (hHL : f.header_extension.length < 2 ^ 16) (hPL : f.payload.length < 2 ^ 32) :
    f.encode = some (wireBytes (if f.use_crc then FLAG_CRC_PRESENT else 0)
      (if f.use_crc then crc32c f.payload else 0)
      f.header_extension f.payload []) := by
  unfold Frame.encode wireBytes
  rw [if_pos ⟨hHL, hPL⟩]
  simp

theorem wireBytes_length (F CRC : Nat) (ext payload rest : List Nat) :
    (wireBytes F CRC ext payload rest).length
      = 18 + ext.length + payload.length + rest.length := by
  simp only [wireBytes, List.length_append, length_packU16, length_packU32]
  simp only [MAGIC, List.length_cons, List.length_nil]

theorem wireBytes_drop4 (F CRC : Nat) (ext payload rest : List Nat) :
    (wireBytes F CRC ext payload rest).drop 4
      = packU16 PROTOCOL_VERSION ++ (packU16 F ++ (packU16 ext.length ++
        (packU32 payload.length ++ (packU32 CRC ++ (ext ++ (payload ++ rest)))))) := by
  unfold wireBytes
  simp only [List.append_assoc]
  exact List.drop_left' rfl

theorem wireBytes_drop6 (F CRC : Nat) (ext payload rest : List Nat) :
    (wireBytes F CRC ext payload rest).drop 6
      = packU16 F ++ (packU16 ext.length ++
        (packU32 payload.length ++ (packU32 CRC ++ (ext ++ (payload ++ rest))))) := by
  have h : (6 : Nat) = 4 + 2 := rfl
  rw [h, ← List.drop_drop, wireBytes_drop4]
  exact List.drop_left' rfl

theorem wireBytes_drop8 (F CRC : Nat) (ext payload rest : List Nat) :
    (wireBytes F CRC ext payload rest).drop 8
      = packU16 ext.length ++
        (packU32 payload.length ++ (packU32 CRC ++ (ext ++ (payload ++ rest)))) := by
  have h : (8 : Nat) = 6 + 2 := rfl
  rw [h, ← List.drop_drop, wireBytes_drop6]
  exact List.drop_left' rfl

theorem wireBytes_drop10 (F CRC : Nat) (ext payload rest : List Nat) :
    (wireBytes F CRC ext payload rest).drop 10
      = packU32 payload.length ++ (packU32 CRC ++ (ext ++ (payload ++ rest))) := by
  have h : (10 : Nat) = 8 + 2 := rfl
  rw [h, ← List.drop_drop, wireBytes_drop8]
  exact List.drop_left' rfl

theorem wireBytes_drop14 (F CRC : Nat) (ext payload rest : List Nat) :
    (wireBytes F CRC ext payload rest).drop 14
      = packU32 CRC ++ (ext ++ (payload ++ rest)) := by
  have h : (14 : Nat) = 10 + 4 := rfl
  rw [h, ← List.drop_drop, wireBytes_drop10]
  exact List.drop_left' rfl

theorem wireBytes_drop18 (F CRC : Nat) (ext payload rest : List Nat) :
    (wireBytes F CRC ext payload rest).drop 18
      = ext ++ (payload ++ rest) := by
  have h : (18 : Nat) = 14 + 4 := rfl
  rw [h, ← List.drop_drop, wireBytes_drop14]
  exact List.drop_left' rfl

theorem wireBytes_take4 (F CRC : Nat) (ext payload rest : List Nat) :
    (wireBytes F CRC ext payload rest).take 4 = MAGIC := by
  unfold wireBytes
  simp only [List.append_assoc]
  exact List.take_left' rfl

/-- Decoding a syntactically well-formed wire buffer: it errors exactly when
the CRC flag is set and the checksum field disagrees with the payload CRC,
and otherwise yields the frame and the trailing bytes. -/
theorem decode_wireBytes (F CRC : Nat) (ext payload rest : List Nat)
    (hF : F < 2 ^ 16) (hHL : ext.length < 2 ^ 16) (hPL : payload.length < 2 ^ 32)
    (hCRC : CRC < 2 ^ 32) :
    Frame.decode (wireBytes F CRC ext payload rest)
      = if F &&& FLAG_CRC_PRESENT ≠ 0 ∧ CRC ≠ crc32c payload
        then .error (.crcMismatch CRC (crc32c payload))
        else .ok (some ⟨payload, F &&& FLAG_CRC_PRESENT ≠ 0, ext⟩, rest) := by
  have hlen := wireBytes_length F CRC ext payload rest
  have hdext : (wireBytes F CRC ext payload rest).drop (18 + ext.length)
      = payload ++ rest := by
    rw [← List.drop_drop, wireBytes_drop18]
    exact List.drop_left' rfl
  have hdtot : (wireBytes F CRC ext payload rest).drop
      (18 + ext.length + payload.length) = rest := by
    rw [← List.drop_drop, hdext]
    exact List.drop_left' rfl
  have hsl1 : (ext ++ (payload ++ rest)).take ext.length = ext :=
    List.take_left' rfl
  have hsl2 : (payload ++ rest).take payload.length = payload :=
    List.take_left' rfl
  simp only [Frame.decode, HEADER_SIZE]
  rw [if_neg (by rw [hlen]; omega)]
  rw [wireBytes_take4, wireBytes_drop4, wireBytes_drop6, wireBytes_drop8,
    wireBytes_drop10, wireBytes_drop14, wireBytes_drop18]
  rw [readU16_packU16 (by norm_num [PROTOCOL_VERSION]) _, readU16_packU16 hF _,
    readU16_packU16 hHL _, readU32_packU32 hPL _, readU32_packU32 hCRC _]
  rw [if_neg (by simp), if_neg (by simp)]
  rw [if_neg (by rw [hlen]; omega)]
  rw [hsl1, hdext, hsl2, hdtot]

/-! ### Claim theorems about the frame codec -/

/-- C3: `crc32c` computes the canonical CRC-32C (Castagnoli) checksum —
table-driven byte-at-a-time with reflected polynomial `0x82F63B78`
(see `crcInner`/`crc32c_table`), seeded with all-ones and finalized with an
all-ones XOR (see `crc32c`) — so the standard test vector `b"123456789"`
yields `0xE3069283` and the empty input yields `0`. -/
theorem crc32c_canonical :
    crc32c [49, 50, 51, 52, 53, 54, 55, 56, 57] = 0xE3069283 ∧ crc32c [] = 0 := by
  refine ⟨by decide, by decide⟩

/-- C1: decoding the encoding of `Frame(payload)` (checksum enabled, no
header extension) yields exactly the original payload with an empty
remainder, and the checksum field on the wire round-trips as the CRC-32C of
the payload. -/
theorem decode_encode_roundtrip (payload bs : List Nat)
    (h : Frame.encode ⟨payload, true, []⟩ = some bs) :
    Frame.decode bs = .ok (some ⟨payload, true, []⟩, []) ∧
      readU32 (bs.drop 14) = crc32c payload := by
  have hPL : payload.length < 2 ^ 32 := by
    by_contra hc
    rw [Frame.encode, if_neg (by simp; omega)] at h
    exact Option.noConfusion h
  have hbs : bs = wireBytes FLAG_CRC_PRESENT (crc32c payload) [] payload [] := by
    rw [encode_eq_wireBytes ⟨payload, true, []⟩ (by simp) hPL] at h
    simpa using h.symm
  subst hbs
  constructor
  · rw [decode_wireBytes _ _ _ _ _ (by norm_num [FLAG_CRC_PRESENT]) (by norm_num)
      hPL (crc32c_lt payload)]
    rw [if_neg (by simp)]
    simp [FLAG_CRC_PRESENT]
  · rw [wireBytes_drop14]
    exact readU32_packU32 (crc32c_lt payload) _

/-- C1 witness: concrete round-trip at payload `[1, 2, 3]`. -/
theorem decode_encode_roundtrip_witness :
    Frame.decode ((Frame.encode ⟨[1, 2, 3], true, []⟩).getD [])
        = .ok (some ⟨[1, 2, 3], true, []⟩, []) ∧
      readU32 (((Frame.encode ⟨[1, 2, 3], true, []⟩).getD []).drop 14)
        = crc32c [1, 2, 3] :=
  decode_encode_roundtrip [1, 2, 3] _ (by decide)

/-- C10: a complete frame whose flags have the checksum-present bit clear
decodes successfully regardless of the value of the 4-byte checksum field;
the field is never compared against the payload. -/
theorem decode_flag_clear_ignores_crc (F CRC : Nat) (ext payload rest : List Nat)
    (hF : F < 2 ^ 16) (hflag : F &&& FLAG_CRC_PRESENT = 0)
    (hHL : ext.length < 2 ^ 16) (hPL : payload.length < 2 ^ 32)
    (hCRC : CRC < 2 ^ 32) :
    Frame.decode (wireBytes F CRC ext payload rest)
      = .ok (some ⟨payload, false, ext⟩, rest) := by
  rw [decode_wireBytes F CRC ext payload rest hF hHL hPL hCRC]
  rw [if_neg (by simp [hflag])]
  simp [hflag]

/-- C10 witness: flags `0`, nonzero checksum field `7`, payload `[5]`,
trailing byte `[9]` — decode succeeds and returns the remainder. -/
theorem decode_flag_clear_ignores_crc_witness :
    Frame.decode (wireBytes 0 7 [] [5] [9]) = .ok (some ⟨[5], false, []⟩, [9]) :=
  decode_flag_clear_ignores_crc 0 7 [] [5] [9] (by norm_num)
    (by norm_num [FLAG_CRC_PRESENT]) (by norm_num) (by norm_num) (by norm_num)

/-- C2: flipping any single bit of the payload region of an encoded frame
with the checksum flag enabled makes decode fail with a CRC-mismatch
protocol error; it never returns a decoded frame. -/
theorem decode_bitflip_crc_error (p ext bs : List Nat) (i k : Nat)
    (hp : ∀ b ∈ p, b < 256) (hi : i < p.length) (hk : k < 8)
    (h : Frame.encode ⟨p, true, ext⟩ = some bs) :
    Frame.decode (bs.set (18 + ext.length + i)
        (bs.getD (18 + ext.length + i) 0 ^^^ 2 ^ k))
      = .error (.crcMismatch (crc32c p)
          (crc32c (p.set i (p.getD i 0 ^^^ 2 ^ k)))) := by
  have hPL : p.length < 2 ^ 32 := by
    by_contra hc
    rw [Frame.encode, if_neg (by simp; omega)] at h
    exact Option.noConfusion h
  have hHL : ext.length < 2 ^ 16 := by
    by_contra hc
    rw [Frame.encode, if_neg (by simp; omega)] at h
    exact Option.noConfusion h
  have hbs : bs = wireBytes FLAG_CRC_PRESENT (crc32c p) ext p [] := by
    rw [encode_eq_wireBytes ⟨p, true, ext⟩ hHL hPL] at h
    simpa using h.symm
  subst hbs
  -- re-associate the wire bytes as (header ++ extension) ++ payload
  have hsplit : wireBytes FLAG_CRC_PRESENT (crc32c p) ext p []
      = (MAGIC ++ packU16 PROTOCOL_VERSION ++ packU16 FLAG_CRC_PRESENT ++
          packU16 ext.length ++ packU32 p.length ++ packU32 (crc32c p) ++ ext)
        ++ p := by
    simp [wireBytes, List.append_assoc]
  have hhlen : (MAGIC ++ packU16 PROTOCOL_VERSION ++ packU16 FLAG_CRC_PRESENT ++
      packU16 ext.length ++ packU32 p.length ++ packU32 (crc32c p) ++ ext).length
      = 18 + ext.length := by
    simp only [List.length_append, length_packU16, length_packU32]
    simp only [MAGIC, List.length_cons, List.length_nil]
  have hget : (wireBytes FLAG_CRC_PRESENT (crc32c p) ext p []).getD
      (18 + ext.length + i) 0 = p.getD i 0 := by
    rw [hsplit, List.getD_eq_getElem?_getD, List.getElem?_append_right (by omega),
      hhlen, Nat.add_sub_cancel_left, ← List.getD_eq_getElem?_getD]
  have hset : (wireBytes FLAG_CRC_PRESENT (crc32c p) ext p []).set
      (18 + ext.length + i) (p.getD i 0 ^^^ 2 ^ k)
      = wireBytes FLAG_CRC_PRESENT (crc32c p) ext
          (p.set i (p.getD i 0 ^^^ 2 ^ k)) [] := by
    rw [hsplit, List.set_append_right _ _ (by omega), hhlen,
      Nat.add_sub_cancel_left]
    have : wireBytes FLAG_CRC_PRESENT (crc32c p) ext
        (p.set i (p.getD i 0 ^^^ 2 ^ k)) []
        = (MAGIC ++ packU16 PROTOCOL_VERSION ++ packU16 FLAG_CRC_PRESENT ++
            packU16 ext.length ++ packU32 p.length ++ packU32 (crc32c p) ++ ext)
          ++ p.set i (p.getD i 0 ^^^ 2 ^ k) := by
      simp [wireBytes, List.append_assoc, List.length_set]
    rw [this]
  rw [hget, hset]
  rw [decode_wireBytes _ _ _ _ _ (by norm_num [FLAG_CRC_PRESENT]) hHL
    (by rw [List.length_set]; exact hPL) (crc32c_lt p)]
  rw [if_pos ⟨by norm_num [FLAG_CRC_PRESENT],
    (crc32c_flip_ne p i k hi hk).symm⟩]

/-- C2 witness: payload `[0]`, flipping bit 0 of the payload byte yields a
CRC-mismatch error with the two checksums. -/
theorem decode_bitflip_crc_error_witness :
    Frame.decode (((Frame.encode ⟨[0], true, []⟩).getD []).set 18
        (((Frame.encode ⟨[0], true, []⟩).getD []).getD 18 0 ^^^ 2 ^ 0))
      = .error (.crcMismatch (crc32c [0])
          (crc32c ([0].set 0 ([0].getD 0 0 ^^^ 2 ^ 0)))) :=
  decode_bitflip_crc_error [0] [] _ 0 0 (by decide) (by decide) (by decide)
    (by decide)

/-- C4: full characterization of `Frame.decode` on an arbitrary buffer.
It raises a protocol error exactly when the first 18 bytes are present and
the magic is wrong, the version is unsupported, or — with the full frame
buffered and the checksum flag set — the checksum field disagrees with the
payload CRC.  With fewer than 18 bytes, or fewer bytes than the declared
extension-plus-payload lengths require (and valid magic/version), it returns
`(none, buffer)` unchanged; on a full valid frame it returns the frame and
exactly the bytes following it. -/
theorem decode_cases (buffer : List Nat) (hb : ∀ b ∈ buffer, b < 256) :
    ((∃ e, Frame.decode buffer = .error e) ↔
      HEADER_SIZE ≤ buffer.length ∧
        (buffer.take 4 ≠ MAGIC ∨ readU16 (buffer.drop 4) ≠ PROTOCOL_VERSION ∨
          (HEADER_SIZE + readU16 (buffer.drop 8) + readU32 (buffer.drop 10)
              ≤ buffer.length ∧
            readU16 (buffer.drop 6) &&& FLAG_CRC_PRESENT ≠ 0 ∧
            readU32 (buffer.drop 14) ≠
              crc32c ((buffer.drop (HEADER_SIZE + readU16 (buffer.drop 8))).take
                (readU32 (buffer.drop 10))))))
    ∧ (buffer.length < HEADER_SIZE → Frame.decode buffer = .ok (none, buffer))
    ∧ (buffer.take 4 = MAGIC → readU16 (buffer.drop 4) = PROTOCOL_VERSION →
        buffer.length <
            HEADER_SIZE + readU16 (buffer.drop 8) + readU32 (buffer.drop 10) →
        Frame.decode buffer = .ok (none, buffer))
    ∧ (buffer.take 4 = MAGIC → readU16 (buffer.drop 4) = PROTOCOL_VERSION →
        HEADER_SIZE ≤ buffer.length →
        HEADER_SIZE + readU16 (buffer.drop 8) + readU32 (buffer.drop 10)
            ≤ buffer.length →
        (readU16 (buffer.drop 6) &&& FLAG_CRC_PRESENT ≠ 0 →
          readU32 (buffer.drop 14) =
            crc32c ((buffer.drop (HEADER_SIZE + readU16 (buffer.drop 8))).take
              (readU32 (buffer.drop 10)))) →
        Frame.decode buffer
          = .ok (some ⟨(buffer.drop
                (HEADER_SIZE + readU16 (buffer.drop 8))).take
                  (readU32 (buffer.drop 10)),
              readU16 (buffer.drop 6) &&& FLAG_CRC_PRESENT ≠ 0,
              (buffer.drop HEADER_SIZE).take (readU16 (buffer.drop 8))⟩,
            buffer.drop (HEADER_SIZE + readU16 (buffer.drop 8)
              + readU32 (buffer.drop 10)))) := by
  by_cases h1 : buffer.length < HEADER_SIZE
  · have hdec : Frame.decode buffer = .ok (none, buffer) := by
      simp only [Frame.decode]
      rw [if_pos h1]
    refine ⟨?_, fun _ => hdec, fun _ _ _ => hdec, fun _ _ h18 _ _ => ?_⟩
    · simp [hdec]
      omega
    · omega
  by_cases h2 : buffer.take 4 = MAGIC
  case neg =>
    have hdec : Frame.decode buffer = .error (.invalidMagic (buffer.take 4)) := by
      simp only [Frame.decode]
      rw [if_neg h1, if_pos h2]
    refine ⟨?_, fun hlt => absurd hlt h1, fun hm _ _ => absurd hm h2,
      fun hm _ _ _ _ => absurd hm h2⟩
    simp [hdec]
    exact ⟨by omega, Or.inl h2⟩
  by_cases h3 : readU16 (buffer.drop 4) = PROTOCOL_VERSION
  case neg =>
    have hdec : Frame.decode buffer
        = .error (.unsupportedVersion (readU16 (buffer.drop 4))) := by
      simp only [Frame.decode]
      rw [if_neg h1, if_neg (by simp [h2]), if_pos h3]
    refine ⟨?_, fun hlt => absurd hlt h1, fun _ hv _ => absurd hv h3,
      fun _ hv _ _ _ => absurd hv h3⟩
    simp [hdec]
    exact ⟨by omega, Or.inr (Or.inl h3)⟩
  by_cases h4 : buffer.length <
      HEADER_SIZE + readU16 (buffer.drop 8) + readU32 (buffer.drop 10)
  · have hdec : Frame.decode buffer = .ok (none, buffer) := by
      simp only [Frame.decode]
      rw [if_neg h1, if_neg (by simp [h2]), if_neg (by simp [h3]), if_pos h4]
    refine ⟨?_, fun hlt => absurd hlt h1, fun _ _ _ => hdec,
      fun _ _ _ htot _ => absurd htot (by omega)⟩
    constructor
    · rintro ⟨e, he⟩
      rw [hdec] at he
      exact absurd he (by simp)
    · rintro ⟨hlen', hm | hv | ⟨htot, hfl, hne⟩⟩
      · exact absurd h2 hm
      · exact absurd h3 hv
      · omega
  by_cases h5 : readU16 (buffer.drop 6) &&& FLAG_CRC_PRESENT ≠ 0 ∧
      readU32 (buffer.drop 14) ≠
        crc32c ((buffer.drop (HEADER_SIZE + readU16 (buffer.drop 8))).take
          (readU32 (buffer.drop 10)))
  · have hdec : Frame.decode buffer
        = .error (.crcMismatch (readU32 (buffer.drop 14))
            (crc32c ((buffer.drop
              (HEADER_SIZE + readU16 (buffer.drop 8))).take
                (readU32 (buffer.drop 10))))) := by
      simp only [Frame.decode]
      rw [if_neg h1, if_neg (by simp [h2]), if_neg (by simp [h3]), if_neg h4,
        if_pos h5]
    refine ⟨?_, fun hlt => absurd hlt h1, fun _ _ hlt => absurd hlt h4,
      fun _ _ _ _ hcrc => absurd (hcrc h5.1) h5.2⟩
    simp [hdec]
    exact ⟨by omega, Or.inr (Or.inr ⟨by omega, h5.1, h5.2⟩)⟩
  · have hdec : Frame.decode buffer
        = .ok (some ⟨(buffer.drop
              (HEADER_SIZE + readU16 (buffer.drop 8))).take
                (readU32 (buffer.drop 10)),
            readU16 (buffer.drop 6) &&& FLAG_CRC_PRESENT ≠ 0,
            (buffer.drop HEADER_SIZE).take (readU16 (buffer.drop 8))⟩,
          buffer.drop (HEADER_SIZE + readU16 (buffer.drop 8)
            + readU32 (buffer.drop 10))) := by
      simp only [Frame.decode]
      rw [if_neg h1, if_neg (by simp [h2]), if_neg (by simp [h3]), if_neg h4,
        if_neg h5]
    refine ⟨?_, fun hlt => absurd hlt h1, fun _ _ hlt => absurd hlt h4,
      fun _ _ _ _ _ => hdec⟩
    constructor
    · rintro ⟨e, he⟩
      rw [hdec] at he
      exact absurd he (by simp)
    · rintro ⟨hlen', hm | hv | ⟨htot, hfl, hne⟩⟩
      · exact absurd h2 hm
      · exact absurd h3 hv
      · exact absurd ⟨hfl, hne⟩ h5

/-- C4 witness: an 18-byte all-zero buffer has bad magic, so decode errors. -/
theorem decode_cases_witness :
    ∃ e, Frame.decode (List.replicate 18 0) = .error e :=
  (decode_cases (List.replicate 18 0) (by decide)).1.mpr
    ⟨by decide, Or.inl (by decide)⟩

end Protocol

/-! ## The connection reader loop (`src/rstmdb/connection.py`) -/

namespace Conn

/-- Errors that flow into pending-request futures, from `errors.py` and the
`ProtocolError`s constructed inside `Connection._read_loop`. -/
inductive PyError where
  | connectionError (msg : String)
  | frameError (e : Protocol.ProtocolError)
  | invalidJson
  | failedParse (id : String)
  deriving DecidableEq, Repr

/-- The observable state of one pending request's `asyncio.Future`. -/
inductive FState where
  | pending
  | resolvedOk
  | failed (e : PyError)
  deriving DecidableEq, Repr

/-- Outcome of `json.loads` plus the `msg_type` dispatch and pydantic
validation performed on one decoded frame's payload (the JSON machinery
itself is external to the repository). -/
inductive ParsedMsg where
  | invalidJson
  | response (id : String)
  | badResponse (id : Option String)
  | event (e : Nat)
  | badEvent
  | other
  deriving DecidableEq, Repr

/-- State touched by `Connection._read_loop`: the completion handles of all
requests issued so far, the ids currently registered in `self._pending`, the
event queue, the receive buffer and the lifecycle flags. -/
structure ReaderConn where
  handles : List (String × FState)
  tableIds : List String
  events : List Nat
  buffer : List Nat
  connected : Bool
  closed : Bool
  deriving DecidableEq, Repr

/-- Mutate one completion handle (future) by id. -/
def setHandle (id : String) (s : FState) (hs : List (String × FState)) :
    List (String × FState) :=
  hs.map (fun p => (p.1, if p.1 = id then s else p.2))

/-- `Connection._fail_pending`: set the exception on every not-yet-done
future in the pending table, then clear the table. -/
def failPending (err : PyError) (c : ReaderConn) : ReaderConn :=
  { c with
    handles := c.handles.map (fun p =>
      (p.1, if p.1 ∈ c.tableIds ∧ p.2 = FState.pending then FState.failed err else p.2)),
    tableIds := [] }

/-- What one `await self._reader.read(8192)` produced. -/
inductive ReadResult where
  | data (bs : List Nat)
  | empty
  | osError (msg : String)
  deriving DecidableEq, Repr

/-- Whether the read loop keeps running after an iteration. -/
inductive LoopCtl where
  | continueLoop
  | exitLoop
  deriving DecidableEq, Repr

/-- The inner `while True` of `_read_loop`: repeatedly decode frames from the
buffer and dispatch each as a response or an event, until the decoder
signals "incomplete" (continue the outer loop) or a protocol/JSON failure
terminates the reader.  Fuel bounds the recursion; `buffer.length + 1` is
always sufficient since every decoded frame consumes at least 18 bytes. -/
def processFrames (parse : List Nat → ParsedMsg) :
    Nat → ReaderConn → ReaderConn × LoopCtl
  | 0, c => (c, .continueLoop)
  | fuel + 1, c =>
    match Protocol.Frame.decode c.buffer with
    | .error e => (failPending (.frameError e) c, .exitLoop)
    | .ok (none, buf) => ({ c with buffer := buf }, .continueLoop)
    | .ok (some f, buf) =>
      let c1 := { c with buffer := buf }
      match parse f.payload with
      | .invalidJson => (failPending .invalidJson c1, .exitLoop)
      | .badResponse oid =>
        match oid with
        | some rid =>
          if rid ∈ c1.tableIds then
            processFrames parse fuel
              { c1 with handles := setHandle rid (.failed (.failedParse rid)) c1.handles }
          else processFrames parse fuel c1
        | none => processFrames parse fuel c1
      | .response rid =>
        if rid ∈ c1.tableIds then
          processFrames parse fuel
            { c1 with handles := setHandle rid .resolvedOk c1.handles }
        else processFrames parse fuel c1
      | .event e => processFrames parse fuel { c1 with events := c1.events ++ [e] }
      | .badEvent => processFrames parse fuel c1
      | .other => processFrames parse fuel c1

/-- One iteration of the outer `while not self._closed` loop of
`Connection._read_loop`, given the result of the socket read. -/
def readLoopIter (parse : List Nat → ParsedMsg) (c : ReaderConn)
    (r : ReadResult) : ReaderConn × LoopCtl :=
  if c.closed then (c, .exitLoop)
  else
    match r with
    | .osError msg =>
      let c1 := { c with connected := false }
      if c1.closed = false then
        (failPending (.connectionError msg) c1, .exitLoop)
      else (c1, .exitLoop)
    | .empty =>
      let c1 := { c with connected := false }
      if c1.closed = false then
        (failPending (.connectionError "Connection closed by server") c1, .exitLoop)
      else (c1, .exitLoop)
    | .data bs =>
      let c1 := { c with buffer := c.buffer ++ bs }
      processFrames parse (c1.buffer.length + 1) c1

theorem lookup_map_snd (hs : List (String × FState)) (g : String → FState → FState)
    (id : String) :
    (hs.map (fun p => (p.1, g p.1 p.2))).lookup id = (hs.lookup id).map (g id) := by
  induction hs with
  | nil => rfl
  | cons p t ih =>
    by_cases h : id = p.1
    · simp [List.lookup, h]
    · simp [List.lookup, h, ih, beq_false_of_ne h]

/-- C5: when the reader loop observes socket closure (empty read) or an I/O
error while requests are pending, it marks the connection not usable, fails
every still-pending completion handle in the table with a connection-lost
(`ConnectionError`) outcome, leaves the pending table empty, and exits the
loop normally (no error escapes the iteration). -/
theorem readLoop_disconnect_fails_pending
    (parse : List Nat → ParsedMsg) (c : ReaderConn) (r : ReadResult)
    (hclosed : c.closed = false)
    (hr : r = .empty ∨ ∃ msg, r = .osError msg) :
    (readLoopIter parse c r).1.connected = false ∧
    (readLoopIter parse c r).1.tableIds = [] ∧
    (readLoopIter parse c r).2 = .exitLoop ∧
    (∀ id ∈ c.tableIds, c.handles.lookup id = some .pending →
      ∃ msg, (readLoopIter parse c r).1.handles.lookup id
        = some (.failed (.connectionError msg))) := by
  rcases hr with hr | ⟨msg, hr⟩
  · subst hr
    have hstep : readLoopIter parse c .empty
        = (failPending (.connectionError "Connection closed by server")
            { c with connected := false }, .exitLoop) := by
      simp [readLoopIter, hclosed]
    rw [hstep]
    refine ⟨rfl, rfl, rfl, ?_⟩
    intro id hmem hpend
    refine ⟨"Connection closed by server", ?_⟩
    simp only [failPending]
    rw [lookup_map_snd c.handles
      (fun k v => if k ∈ c.tableIds ∧ v = FState.pending then FState.failed
        (.connectionError "Connection closed by server") else v) id]
    rw [hpend]
    simp [hmem]
  · subst hr
    have hstep : readLoopIter parse c (.osError msg)
        = (failPending (.connectionError msg)
            { c with connected := false }, .exitLoop) := by
      simp [readLoopIter, hclosed]
    rw [hstep]
    refine ⟨rfl, rfl, rfl, ?_⟩
    intro id hmem hpend
    refine ⟨msg, ?_⟩
    simp only [failPending]
    rw [lookup_map_snd c.handles
      (fun k v => if k ∈ c.tableIds ∧ v = FState.pending then FState.failed
        (.connectionError msg) else v) id]
    rw [hpend]
    simp [hmem]

/-- Example reader state with two pending requests, used by the C5 witness. -/
def readerExample : ReaderConn :=
  { handles := [("1", .pending), ("2", .pending)]
    tableIds := ["1", "2"]
    events := []
    buffer := []
    connected := true
    closed := false }

/-- C5 witness: a closed socket read with two pending requests fails both
with a connection-lost outcome, empties the table, and exits the loop. -/
theorem readLoop_disconnect_fails_pending_witness :
    (readLoopIter (fun _ => .other) readerExample .empty).1.connected = false ∧
    (readLoopIter (fun _ => .other) readerExample .empty).1.tableIds = [] ∧
    (readLoopIter (fun _ => .other) readerExample .empty).2 = .exitLoop ∧
    (∀ id ∈ readerExample.tableIds,
      readerExample.handles.lookup id = some .pending →
      ∃ msg, (readLoopIter (fun _ => .other) readerExample .empty).1.handles.lookup id
        = some (.failed (.connectionError msg))) :=
  readLoop_disconnect_fails_pending (fun _ => .other) readerExample .empty rfl
    (Or.inl rfl)

end Conn

/-! ## The client: reconnection, backoff, watch re-subscription
(`src/rstmdb/client.py`) -/

namespace Client

/-- The `Connection` attributes the client-level claims depend on
(`Connection.__init__`). -/
structure ConnectionM where
  request_id : Nat
  events : List Nat
  buffer : List Nat
  closed : Bool
  connected : Bool
  deriving DecidableEq, Repr

/-- `Connection.__init__`: counter at zero, empty queue and buffer, not
closed, not connected. -/
def ConnectionM.init : ConnectionM :=
  { request_id := 0, events := [], buffer := [], closed := false, connected := false }

/-- Request-identifier allocation (`Connection.request` /
`Connection._request_raw`): `self._request_id += 1; req_id = str(self._request_id)`. -/
def ConnectionM.nextRequestId (c : ConnectionM) : String × ConnectionM :=
  (toString (c.request_id + 1), { c with request_id := c.request_id + 1 })

/-- `Connection.connect`: HELLO handshake (one raw request), optional AUTH
(a second raw request), then mark connected. -/
def ConnectionM.connect (auth : Bool) (c : ConnectionM) : ConnectionM :=
  let c1 := (c.nextRequestId).2
  let c2 := if auth then (c1.nextRequestId).2 else c1
  { c2 with connected := true }

/-- `Connection._reset` — defined in `connection.py` ("Don't reset
_request_id", "Don't reset _events queue") but never invoked anywhere in the
repository. -/
def ConnectionM.reset (c : ConnectionM) : ConnectionM :=
  { c with buffer := [], connected := false }

/-- `Connection.close`. -/
def ConnectionM.close (c : ConnectionM) : ConnectionM :=
  { c with closed := true }

/-- The watch-filter parameters dict built by `Client.watch_all` (a key is
present only when the corresponding argument is truthy). -/
structure WatchParams where
  machines : Option (List String)
  from_states : Option (List String)
  to_states : Option (List String)
  events : Option (List String)
  include_ctx : Bool
  deriving DecidableEq, Repr

/-- The `Client` attributes the claims depend on. -/
structure ClientState where
  conn : ConnectionM
  auth : Bool
  auto_reconnect : Bool
  max_reconnect_attempts : Nat
  reconnect_base_delay : ℚ
  reconnect_max_delay : ℚ
  reconnect_attempt : Nat
  watch_params : Option WatchParams
  deriving DecidableEq, Repr

/-- `Client.connect`: connect the underlying connection, then zero the
attempt counter. -/
def ClientState.connect (st : ClientState) : ClientState :=
  { st with conn := st.conn.connect st.auth, reconnect_attempt := 0 }

/-- `Client.reconnect`: close the existing connection, construct a **new**
`Connection` with the same configuration, connect it (handshake/auth), and
zero the attempt counter.  The old connection object — including its
request-id counter and its event queue — is discarded. -/
def ClientState.reconnect (st : ClientState) : ClientState :=
  { st with conn := ConnectionM.init.connect st.auth, reconnect_attempt := 0 }

/-- Request-id allocation as seen through the client's current connection. -/
def ClientState.nextRequestId (st : ClientState) : String × ClientState :=
  ((st.conn.nextRequestId).1, { st with conn := (st.conn.nextRequestId).2 })

/-- `Client.watch_all`: build the params dict (omitting falsy filters) and
store a copy for re-subscription after reconnect. -/
def ClientState.watch_all (st : ClientState) (machines from_states to_states evs : List String)
    (include_ctx : Bool) : ClientState :=
  let params : WatchParams :=
    { machines := if machines ≠ [] then some machines else none
      from_states := if from_states ≠ [] then some from_states else none
      to_states := if to_states ≠ [] then some to_states else none
      events := if evs ≠ [] then some evs else none
      include_ctx := include_ctx }
  { st with watch_params := some params }

/-- `Client.unwatch`: clear the stored watch params. -/
def ClientState.unwatch (st : ClientState) : ClientState :=
  { st with watch_params := none }

/-- Result of `Client._reconnect_with_backoff`, driven by a list of attempt
outcomes (`true` = `self.reconnect()` succeeded, `false` = it raised
`ConnectionError`). -/
inductive BackoffResult where
  | success (st : ClientState)
  | gaveUp (st : ClientState)
  | outOfOutcomes (st : ClientState)
  deriving DecidableEq, Repr

/-- `Client._reconnect_with_backoff`: each cycle increments the attempt
counter, gives up when a nonzero maximum is exceeded, sleeps
`min(base_delay * 2**(attempt-1), max_delay)`, and tries to reconnect.
Returns the result together with the list of delays slept. -/
def reconnectWithBackoff (st : ClientState) : List Bool → BackoffResult × List ℚ
  | [] => (.outOfOutcomes st, [])
  | o :: rest =>
    let st1 := { st with reconnect_attempt := st.reconnect_attempt + 1 }
    if 0 < st1.max_reconnect_attempts ∧
        st1.max_reconnect_attempts < st1.reconnect_attempt then
      (.gaveUp st1, [])
    else
      let delay := min (st1.reconnect_base_delay * 2 ^ (st1.reconnect_attempt - 1))
        st1.reconnect_max_delay
      if o then (.success st1.reconnect, [delay])
      else
        let r := reconnectWithBackoff st1 rest
        (r.1, delay :: r.2)

theorem backoff_delays_general : ∀ (k : Nat) (st : ClientState),
    st.max_reconnect_attempts = 0 →
    (reconnectWithBackoff st (List.replicate k false ++ [true])).2
      = (List.range' (st.reconnect_attempt + 1) (k + 1)).map
          (fun n => min (st.reconnect_base_delay * 2 ^ (n - 1))
            st.reconnect_max_delay)
    ∧ ∃ st', (reconnectWithBackoff st (List.replicate k false ++ [true])).1
        = .success st' ∧ st'.reconnect_attempt = 0 := by
  intro k
  induction k with
  | zero =>
    intro st hmax
    simp only [List.replicate, List.nil_append, reconnectWithBackoff, hmax]
    refine ⟨?_, ⟨_, rfl, rfl⟩⟩
    simp [List.range'_succ]
  | succ k ih =>
    intro st hmax
    have hrep : List.replicate (k + 1) false ++ [true]
        = false :: (List.replicate k false ++ [true]) := by
      simp [List.replicate_succ]
    rw [hrep]
    simp only [reconnectWithBackoff]
    rw [if_neg (by simp [hmax])]
    simp only [Bool.false_eq_true, if_false]
    obtain ⟨ihd, ihs⟩ := ih { st with reconnect_attempt := st.reconnect_attempt + 1 }
      (by simp [hmax])
    refine ⟨?_, ihs⟩
    rw [ihd]
    conv_rhs => rw [List.range'_succ, List.map_cons]

theorem backoff_all_fail : ∀ (k : Nat) (st : ClientState),
    st.max_reconnect_attempts = 0 →
    (reconnectWithBackoff st (List.replicate k false)).1
      = .outOfOutcomes { st with reconnect_attempt := st.reconnect_attempt + k } := by
  intro k
  induction k with
  | zero => intro st _; simp [reconnectWithBackoff]
  | succ k ih =>
    intro st hmax
    rw [List.replicate_succ]
    simp only [reconnectWithBackoff]
    rw [if_neg (by simp [hmax])]
    simp only [Bool.false_eq_true, if_false]
    rw [ih { st with reconnect_attempt := st.reconnect_attempt + 1 } (by simp [hmax])]
    have h' : st.reconnect_attempt + 1 + k = st.reconnect_attempt + (k + 1) := by
      omega
    simp [h']

/-- C6: with an unlimited attempt budget and the counter starting at zero,
the delay before reconnect attempt `n = i + 1` is
`min(base_delay * 2 ^ (n - 1), max_delay)`; the attempt counter is reset to
zero by a successful reconnect and is never reset while attempts keep
failing. -/
theorem backoff_policy (st : ClientState) (k : Nat)
    (hmax : st.max_reconnect_attempts = 0) (hatt : st.reconnect_attempt = 0) :
    ((reconnectWithBackoff st (List.replicate k false ++ [true])).2
      = (List.range' 1 (k + 1)).map
          (fun n => min (st.reconnect_base_delay * 2 ^ (n - 1))
            st.reconnect_max_delay))
    ∧ (∃ st', (reconnectWithBackoff st (List.replicate k false ++ [true])).1
        = .success st' ∧ st'.reconnect_attempt = 0)
    ∧ (reconnectWithBackoff st (List.replicate k false)).1
        = .outOfOutcomes { st with reconnect_attempt := k } := by
  have h1 := backoff_delays_general k st hmax
  have h2 := backoff_all_fail k st hmax
  refine ⟨?_, h1.2, ?_⟩
  · rw [h1.1, hatt]
  · rw [h2, hatt]
    simp

/-- A freshly configured client with `reconnect_base_delay = 1.0` and
`reconnect_max_delay = 30.0`, unlimited attempts. -/
def clientExample : ClientState :=
  { conn := ConnectionM.init
    auth := false
    auto_reconnect := true
    max_reconnect_attempts := 0
    reconnect_base_delay := 1
    reconnect_max_delay := 30
    reconnect_attempt := 0
    watch_params := none }

/-- C6 witness: with base 1.0 and max 30.0 the successive delays are
`1, 2, 4, 8, 16, 30, 30`, and the successful seventh attempt resets the
counter to zero. -/
theorem backoff_policy_witness :
    ((reconnectWithBackoff clientExample (List.replicate 6 false ++ [true])).2
      = [1, 2, 4, 8, 16, 30, 30])
    ∧ (∃ st', (reconnectWithBackoff clientExample
          (List.replicate 6 false ++ [true])).1
        = .success st' ∧ st'.reconnect_attempt = 0) := by
  have h := backoff_policy clientExample 6 rfl rfl
  refine ⟨?_, h.2.1⟩
  rw [h.1]
  norm_num [clientExample, List.range'_succ]

/-! ### Request identifiers and the event queue across a reconnect
(claims C7 and C8)

`Connection._reset` preserves `_request_id` and `_events` ("Don't reset
_request_id to avoid ID collisions", "Don't reset _events queue to preserve
unprocessed events"), but it is never called: `Client.reconnect` instead
replaces `self._conn` with a brand-new `Connection`, whose constructor sets
`_request_id = 0` and creates a fresh empty queue. -/

/-- A client that has connected (HELLO consumed request id 1). -/
def connectedClient : ClientState := clientExample.connect

/-- C7 evaluation: the first user request before a reconnect and the first
user request after a reconnect are both assigned identifier `"2"` — the
identifier is reused, contradicting the claim that identifiers never reset
across a reconnect within the same client. -/
theorem requestId_reused_after_reconnect :
    (connectedClient.nextRequestId).1 = "2" ∧
    ((((connectedClient.nextRequestId).2).reconnect).nextRequestId).1 = "2" := by
  constructor <;> rfl

/-- A connected client holding one event (`7`) in its connection's queue,
enqueued by the reader but not yet consumed. -/
def clientWithBufferedEvent : ClientState :=
  { connectedClient with
    conn := { connectedClient.conn with events := [7], connected := false } }

/-- C8 evaluation: `Client.reconnect` replaces the connection object, so the
event queue the client's iterator reads from is the fresh connection's empty
queue; the previously enqueued, unconsumed event is no longer reachable —
contradicting the claim that already-enqueued events survive a reconnect. -/
theorem buffered_event_lost_after_reconnect :
    clientWithBufferedEvent.conn.events = [7] ∧
    (clientWithBufferedEvent.reconnect).conn.events = [] ∧
    (clientWithBufferedEvent.reconnect).conn.events
      ≠ clientWithBufferedEvent.conn.events := by
  refine ⟨rfl, rfl, by decide⟩

/-- In contrast, the dead `Connection._reset` would have preserved both the
request-id counter and the queue, as its comments state. -/
theorem reset_preserves_counter_and_queue (c : ConnectionM) :
    (c.reset).request_id = c.request_id ∧ (c.reset).events = c.events :=
  ⟨rfl, rfl⟩

theorem reset_preserves_counter_and_queue_witness :
    ((ConnectionM.init.connect false).reset).request_id
        = (ConnectionM.init.connect false).request_id ∧
      ((ConnectionM.init.connect false).reset).events
        = (ConnectionM.init.connect false).events :=
  reset_preserves_counter_and_queue (ConnectionM.init.connect false)

/-! ### The consumer-facing event iterator (`Client.events`, claim C9) -/

/-- Why one round of `async for event in self._conn.events()` ended. -/
inductive EndReason where
  | closedGracefully
  | connLost (msg : String)
  deriving DecidableEq, Repr

/-- One round of the connection's event stream: the events it yielded, and
how it ended. -/
structure Segment where
  evs : List Nat
  reason : EndReason
  deriving DecidableEq, Repr

/-- Observable actions of the `Client.events` iterator. -/
inductive EvAction where
  | deliver (e : Nat)
  | returned
  | raisedConnLost (msg : String)
  | reconnected
  | reissuedWatch (p : WatchParams)
  deriving DecidableEq, Repr

/-- The `while True` loop of `Client.events`: yield each event from the
current connection's stream; when the stream ends (gracefully or by
`ConnectionError`), return/raise unless auto-reconnect is on and watch
params are held, in which case reconnect with backoff and reissue
`WATCH_ALL` with the stored params before resuming delivery.  The supplied
segments drive successive rounds; reconnects are taken as succeeding. -/
def eventsRun (st : ClientState) : List Segment → List EvAction
  | [] => []
  | seg :: rest =>
    match seg.reason with
    | .closedGracefully =>
      match st.watch_params with
      | none => seg.evs.map EvAction.deliver ++ [.returned]
      | some p =>
        if st.auto_reconnect then
          seg.evs.map EvAction.deliver ++ [.reconnected, .reissuedWatch p]
            ++ eventsRun st.reconnect rest
        else seg.evs.map EvAction.deliver ++ [.returned]
    | .connLost msg =>
      match st.watch_params with
      | none => seg.evs.map EvAction.deliver ++ [.raisedConnLost msg]
      | some p =>
        if st.auto_reconnect then
          seg.evs.map EvAction.deliver ++ [.reconnected, .reissuedWatch p]
            ++ eventsRun st.reconnect rest
        else seg.evs.map EvAction.deliver ++ [.raisedConnLost msg]

/-- C9: after the event stream is interrupted by a connection loss while
watch parameters are held, the iterator reconnects and reissues `WATCH_ALL`
with exactly the stored parameters before delivering any further event. -/
theorem watch_reissued_before_delivery (st : ClientState) (p : WatchParams)
    (seg : Segment) (rest : List Segment) (msg : String)
    (hauto : st.auto_reconnect = true) (hw : st.watch_params = some p)
    (hr : seg.reason = .connLost msg) :
    eventsRun st (seg :: rest)
      = seg.evs.map EvAction.deliver
        ++ [EvAction.reconnected, EvAction.reissuedWatch p]
        ++ eventsRun st.reconnect rest := by
  conv_lhs => rw [eventsRun]
  simp [hr, hw, hauto]

/-- Client that issued `watch_all(machines=["order"])` and then lost the
connection. -/
def watchingClient : ClientState :=
  connectedClient.watch_all ["order"] [] [] [] true

/-- C9 witness: with stored filters `machines=["order"]`, after a segment
delivering event `3` ends in connection loss, the trace is: deliver 3,
reconnect, reissue watch with the same stored params, then the next
segment's deliveries. -/
theorem watch_reissued_before_delivery_witness :
    eventsRun watchingClient
        [⟨[3], .connLost "gone"⟩, ⟨[4], .closedGracefully⟩]
      = [3].map EvAction.deliver
        ++ [EvAction.reconnected, EvAction.reissuedWatch
            ⟨some ["order"], none, none, none, true⟩]
        ++ eventsRun watchingClient.reconnect [⟨[4], .closedGracefully⟩] :=
  watch_reissued_before_delivery watchingClient
    ⟨some ["order"], none, none, none, true⟩ ⟨[3], .connLost "gone"⟩
    [⟨[4], .closedGracefully⟩] "gone" rfl rfl rfl

end Client
end Rstmdb
